import Mathlib

/-!
Verification of the VML markup engine from
`src/projects/bidirectional-converter/vml_standalone.py`.

The Python code is embedded shallowly: every regular expression of
`VMLSyntax` is translated into an explicit decidable matcher on the
character list of the line, Python dictionaries become insertion-ordered
association lists with in-place overwrite, and the stateful
`VMLParser.parse` loop becomes a fuel-indexed recursive function that
threads the persistent `self.metadata` mapping explicitly (this is the
only piece of parser state that `parse` does not reset).
-/

/-! ## Basic character classes (Python `str.strip` / regex `\s`, `\w`) -/

/-- ASCII whitespace as recognised by Python's `str.strip()` and by `\s`
in the `re` patterns of `VMLSyntax` (inputs here are ASCII). -/
def isPySpace (c : Char) : Bool :=
  c = ' ' || c = '\t' || c = '\n' || c = '\r' || c = '\x0b' || c = '\x0c'

/-- Word characters matched by `\w` (ASCII). -/
def isWordChar (c : Char) : Bool :=
  c.isAlphanum || c = '_'

/-- Strip characters satisfying `p` from both ends of a list
(Python `str.strip` family). -/
def stripL (p : Char → Bool) (l : List Char) : List Char :=
  ((l.dropWhile p).reverse.dropWhile p).reverse

/-- Python `line.strip()`. -/
def pyStrip (s : String) : String :=
  ⟨stripL isPySpace s.data⟩

/-- Python `s.strip(cs)` for an explicit character set, e.g. `strip('|')`
or the quote stripping `strip('"\'')` in `_parse_attributes`. -/
def stripSet (cs : List Char) (s : String) : String :=
  ⟨stripL (fun c => cs.contains c) s.data⟩

/-! ## Python `str.split` on a single separator character -/

/-- Python `s.split(sep)` for a one-character separator, on character
lists: all parts are kept, `[] ↦ [[]]`. -/
def splitCharL (sep : Char) : List Char → List (List Char)
  | [] => [[]]
  | c :: t =>
    match splitCharL sep t with
    | [] => if c = sep then [[], []] else [[c]]
    | h :: r => if c = sep then [] :: h :: r else (c :: h) :: r

/-- Python `s.split(sep)` for a one-character separator, on strings. -/
def pySplit (sep : Char) (s : String) : List String :=
  (splitCharL sep s.data).map fun d => ⟨d⟩

/-- A parse input is split into lines exactly as Python's
`content.split('\n')` does. -/
def splitLinesS (content : String) : List String :=
  pySplit '\n' content

/-- Python `s.split(sep, 1)` restricted to the cases the code guards with
`sep in s`: returns the parts before and after the first separator, or
`none` when the separator is absent. -/
def splitFirst (sep : Char) : List Char → Option (List Char × List Char)
  | [] => none
  | c :: t =>
    if c = sep then some ([], t)
    else
      match splitFirst sep t with
      | some (a, b) => some (c :: a, b)
      | none => none

/-- `'\n'.join(lines)`-style join with an arbitrary separator character,
on character lists. -/
def joinSepL (sep : Char) : List (List Char) → List Char
  | [] => []
  | [x] => x
  | x :: y :: t => x ++ sep :: joinSepL sep (y :: t)

/-- Join a list of strings with a separator character. -/
def joinSep (sep : Char) (L : List String) : String :=
  ⟨joinSepL sep (L.map String.data)⟩

/-- `'\n'.join(lines)`. -/
def joinLines (L : List String) : String :=
  joinSep '\n' L

/-! ## Python dictionaries -/

/-- Python metadata dictionary: insertion-ordered association list of
strings; assignment overwrites in place, new keys are appended. -/
abbrev Mdict := List (String × String)

/-- Python `d[k] = v` on an insertion-ordered association list. -/
def dictSet {α : Type} (d : List (String × α)) (k : String) (v : α) :
    List (String × α) :=
  if d.any (fun p => p.1 = k) then
    d.map (fun p => if p.1 = k then (k, v) else p)
  else d ++ [(k, v)]

/-! ## Non-overlapping substring count (Python `str.count`) -/

/-- Python `s.count(sub)` for nonempty `sub`: non-overlapping
occurrences, scanning left to right. -/
def countSubL (fuel : Nat) (sub : List Char) (l : List Char) : Nat :=
  match fuel with
  | 0 => 0
  | fuel + 1 =>
    match l with
    | [] => 0
    | c :: rest =>
      if sub.isPrefixOf (c :: rest) then
        1 + countSubL fuel sub ((c :: rest).drop sub.length)
      else countSubL fuel sub rest

/-- Python `line.count(sub)` on strings. -/
def pyCount (sub line : String) : Nat :=
  countSubL line.data.length sub.data line.data

/-! ## The regex matchers of `VMLSyntax`, derived pattern by pattern -/

/-- `METADATA_PATTERN = r'^---\s*$'`: exactly three dashes followed by
whitespace only. -/
def metaLine (s : String) : Bool :=
  match s.data with
  | '-' :: '-' :: '-' :: rest => rest.all isPySpace
  | _ => false

/-- Length of the run of leading `#` characters of a line (the text
captured by `#{1,6}` when `HEADING_PATTERN` matches). -/
def leadingRun (s : String) : Nat :=
  (s.data.takeWhile (fun c => c = '#')).length

/-- `HEADING_PATTERN = r'^(#{1,6})\s+(.+)$'`: returns the level (run of
leading `#`, at most 6) and the captured text. The greedy `\s+` takes the
maximal whitespace run; when the whole remainder is whitespace it backs
off one character so that `(.+)` can still match. -/
def headingMatch (s : String) : Option (Nat × String) :=
  let r := leadingRun s
  if 1 ≤ r ∧ r ≤ 6 then
    let rest := s.data.drop r
    let w := rest.takeWhile isPySpace
    let tl := rest.drop w.length
    if w.length = 0 then none
    else if tl = [] then
      match w.reverse with
      | c :: _ :: _ => some (r, ⟨[c]⟩)
      | _ => none
    else some (r, ⟨tl⟩)
  else none

/-- `DIRECTIVE_PATTERN = r'^@(\w+)(?:\[([^\]]*)\])?\s*(.*)$'`: directive
name, bracketed parameter string (with `match.group(2) or ""` giving `""`
when the optional group did not participate), trailing text after `\s*`. -/
def directiveMatch (s : String) : Option (String × String × String) :=
  match s.data with
  | '@' :: rest =>
    let name := rest.takeWhile isWordChar
    if name = [] then none
    else
      let r1 := rest.drop name.length
      match r1 with
      | '[' :: r2 =>
        match splitFirst ']' r2 with
        | some (params, r3) =>
          some (⟨name⟩, ⟨params⟩, ⟨r3.dropWhile isPySpace⟩)
        | none => some (⟨name⟩, "", ⟨r1.dropWhile isPySpace⟩)
      | _ => some (⟨name⟩, "", ⟨r1.dropWhile isPySpace⟩)
  | _ => none

/-- `SECTION_START_PATTERN = r'^::\s*(\w+)(?:\[([^\]]*)\])?\s*$'`:
section name and parameter string. The bracket group must follow the name
immediately and its content may not contain `]`; the line must end in
whitespace only. -/
def sectionStartMatch (s : String) : Option (String × String) :=
  match s.data with
  | ':' :: ':' :: r0 =>
    let r1 := r0.dropWhile isPySpace
    let name := r1.takeWhile isWordChar
    if name = [] then none
    else
      let r2 := r1.drop name.length
      match r2 with
      | '[' :: r3 =>
        match splitFirst ']' r3 with
        | some (params, r4) =>
          if r4.all isPySpace then some (⟨name⟩, ⟨params⟩) else none
        | none => none
      | _ => if r2.all isPySpace then some (⟨name⟩, "") else none
  | _ => none

/-- `SECTION_END_PATTERN = r'^::\s*/(\w+)\s*$'`. -/
def sectionEndMatch (s : String) : Option String :=
  match s.data with
  | ':' :: ':' :: r0 =>
    match r0.dropWhile isPySpace with
    | '/' :: r1 =>
      let name := r1.takeWhile isWordChar
      if name = [] then none
      else if (r1.drop name.length).all isPySpace then some ⟨name⟩
      else none
    | _ => none
  | _ => none

/-- `TABLE_SEPARATOR = r'^\|[\s\-:|]+\|$'`. -/
def tableSepMatch (s : String) : Bool :=
  match s.data with
  | '|' :: rest =>
    match rest.reverse with
    | '|' :: midrev =>
      !midrev.isEmpty &&
        midrev.all (fun c => isPySpace c || c = '-' || c = ':' || c = '|')
    | _ => false
  | _ => false

/-- `TABLE_ROW = r'^\|(.+)\|$'` (the group may not span a newline). -/
def tableRowMatch (s : String) : Bool :=
  match s.data with
  | '|' :: rest =>
    match rest.reverse with
    | '|' :: midrev => !midrev.isEmpty && midrev.all (fun c => c ≠ '\n')
    | _ => false
  | _ => false

/-- The unanchored validator pattern `r'^::\s*(\w+)'` from
`validate_syntax`: returns `(match.group(0), match.group(1))`. Closing
lines `:: /name` can never match it, because `/` is not a word
character. -/
def sectionLineRe (line : String) : Option (String × String) :=
  match line.data with
  | ':' :: ':' :: r0 =>
    let wsp := r0.takeWhile isPySpace
    let r1 := r0.drop wsp.length
    let name := r1.takeWhile isWordChar
    if name = [] then none
    else some (⟨':' :: ':' :: (wsp ++ name)⟩, ⟨name⟩)
  | _ => none

/-! ## Inline substitution (`VMLParser._process_inline_elements`)

Each `re.sub(pattern, repl, text)` call in the Python cascade scans the
input left to right, replaces the leftmost match, and resumes after the
match — replacements are never rescanned by the same pass. Every pattern
there has the shape `start (inner)+ end` where the inner characters are
restricted either by a character class (`[^}]`, `[^\]]`) or by `.`
(anything but a newline), and the inner part is matched lazily, i.e. it
ends at the first position where the closing delimiter fits. -/

/-- Search for the closing delimiter: consume at least one `ok` inner
character, then stop at the first position where `en` is a prefix.
Returns the inner text and the remainder after the delimiter. -/
def tryCloseAux (fuel : Nat) (en : List Char) (ok : Char → Bool)
    (acc : List Char) (l : List Char) : Option (List Char × List Char) :=
  match fuel with
  | 0 => none
  | fuel + 1 =>
    if en.isPrefixOf l ∧ acc ≠ [] then some (acc.reverse, l.drop en.length)
    else
      match l with
      | [] => none
      | c :: rest =>
        if ok c then tryCloseAux fuel en ok (c :: acc) rest else none

/-- One `re.sub` pass for a pattern `start (inner)+? end`, replacing each
match by `tO ++ inner ++ tC`. -/
def subPass (fuel : Nat) (st en : List Char) (ok : Char → Bool)
    (tO tC : List Char) (l : List Char) : List Char :=
  match fuel with
  | 0 => l
  | fuel + 1 =>
    match l with
    | [] => []
    | c :: rest =>
      if st.isPrefixOf (c :: rest) then
        match tryCloseAux ((c :: rest).drop st.length).length en ok []
            ((c :: rest).drop st.length) with
        | some (inner, after) =>
          tO ++ inner ++ tC ++ subPass fuel st en ok tO tC after
        | none => c :: subPass fuel st en ok tO tC rest
      else c :: subPass fuel st en ok tO tC rest

/-- String-level wrapper for one substitution pass. -/
def applySub (st en tO tC : String) (ok : Char → Bool) (s : String) :
    String :=
  ⟨subPass s.data.length st.data en.data ok tO.data tC.data s.data⟩

/-- `VARIABLE_PATTERN = r'\$\{([^}]+)\}'`, replaced by
`<var>…</var>`. -/
def subVariables (s : String) : String :=
  applySub "$\x7b" "\x7d" "<var>" "</var>" (fun c => c ≠ '\x7d') s

/-- `TEMPLATE_PATTERN = r'%\{([^}]+)\}'`, replaced by
`<template>…</template>`. -/
def subTemplates (s : String) : String :=
  applySub "%\x7b" "\x7d" "<template>" "</template>" (fun c => c ≠ '\x7d') s

/-- `ANNOTATION_PATTERN = r'\[\[([^\]]+)\]\]'`, replaced by a pseudo-tag
pair. -/
def subAnnotations (s : String) : String :=
  applySub "[[" "]]" "<annotation>" "</annotation>" (fun c => c ≠ ']') s

/-- `CUSTOM_MARKUP`: the six delimiter pairs, in the (insertion) order of
the Python dict. -/
def CUSTOM_MARKUP : List (String × String × String) :=
  [("emphasis", "!!", "!!"),
   ("context", "<~", "~>"),
   ("note", "(*", "*)"),
   ("warning", "/!", "!/"),
   ("success", "/+", "+/"),
   ("code_ref", "@[", "]@")]

/-- One custom-markup pass: pattern
`re.escape(start) + '(.+?)' + re.escape(end)` replaced by
`<name>…</name>`. -/
def subMarkup (entry : String × String × String) (s : String) : String :=
  applySub entry.2.1 entry.2.2 ("<" ++ entry.1 ++ ">")
    ("</" ++ entry.1 ++ ">") (fun c => c ≠ '\n') s

/-- The `for markup_type, (start, end) in CUSTOM_MARKUP.items()` loop. -/
def subCustomAll (s : String) : String :=
  CUSTOM_MARKUP.foldl (fun t e => subMarkup e t) s

/-- `BOLD_PATTERN = r'\*\*(.+?)\*\*'` replaced by `<b>\1</b>`. -/
def subBold (s : String) : String :=
  applySub "**" "**" "<b>" "</b>" (fun c => c ≠ '\n') s

/-- `ITALIC_PATTERN = r'\*(.+?)\*'` replaced by `<i>\1</i>`. -/
def subItalic (s : String) : String :=
  applySub "*" "*" "<i>" "</i>" (fun c => c ≠ '\n') s

/-- `CODE_INLINE_PATTERN` (backtick-delimited) replaced by
`<code>\1</code>`. -/
def subCodeInline (s : String) : String :=
  applySub "\x60" "\x60" "<code>" "</code>" (fun c => c ≠ '\n') s

/-- `VMLParser._process_inline_elements`: the ordered substitution
cascade — variables, templates, annotations, the custom-markup table,
bold, italic, inline code; each pass runs on the previous pass's
output. -/
def processInlineElements (text : String) : String :=
  let text := subVariables text
  let text := subTemplates text
  let text := subAnnotations text
  let text := subCustomAll text
  let text := subBold text
  let text := subItalic text
  let text := subCodeInline text
  text

/-! ## The element model (`VMLElementType`, `VMLElement`) -/

/-- `VMLElementType`: kinds of elements in VML. -/
inductive VMLElementType where
  | HEADING | PARAGRAPH | LIST | CODE_BLOCK | QUOTE | LINK | IMAGE
  | TABLE | METADATA | DIRECTIVE | VARIABLE | TEMPLATE | ANNOT
  | SECTION | EMPHASIS | CUSTOM
deriving DecidableEq, Repr

/-- Values stored in an element's heterogeneous `attributes` dictionary
(`Dict[str, Any]` in Python): strings, booleans (bare attributes), the
heading level, a nested attribute dictionary (`params`), string lists
(table headers/alignment) and row lists. -/
inductive AVal where
  | s : String → AVal
  | b : Bool → AVal
  | n : Nat → AVal
  | dict : List (String × AVal) → AVal
  | strs : List String → AVal
  | rows : List (List String) → AVal
deriving Repr

/-- `VMLElement`: type, content, attribute dictionary, children (the
Python default `None` and a section's possibly empty list are both
modelled as a plain list, `[]` for `None`) and source line number. -/
inductive VMLElement where
  | mk : VMLElementType → String → List (String × AVal) →
      List VMLElement → Nat → VMLElement

/-- The `type` field of an element. -/
def VMLElement.etype : VMLElement → VMLElementType
  | .mk ty _ _ _ _ => ty

/-- The `content` field of an element. -/
def VMLElement.content : VMLElement → String
  | .mk _ c _ _ _ => c

/-- The `attributes` field of an element. -/
def VMLElement.attrs : VMLElement → List (String × AVal)
  | .mk _ _ a _ _ => a

/-- The `children` field of an element. -/
def VMLElement.children : VMLElement → List VMLElement
  | .mk _ _ _ ch _ => ch

/-- The `line_number` field of an element. -/
def VMLElement.lineNo : VMLElement → Nat
  | .mk _ _ _ _ i => i

/-! ## Attribute and metadata processing -/

/-- One token of `VMLParser._parse_attributes`: a `key=value` token maps
the stripped key to the stripped value with all surrounding quote
characters removed (`value.strip().strip('"\'')`); a bare token maps to
`True`. -/
def attrStep (acc : List (String × AVal)) (tok : String) :
    List (String × AVal) :=
  match splitFirst '=' tok.data with
  | some kv =>
    dictSet acc (pyStrip ⟨kv.1⟩)
      (AVal.s (stripSet ['"', '\x27'] (pyStrip ⟨kv.2⟩)))
  | none => dictSet acc (pyStrip tok) (AVal.b true)

/-- `VMLParser._parse_attributes`: split the parameter string on commas
and process each token. -/
def parseAttributes (attr : String) : List (String × AVal) :=
  if attr = "" then []
  else (pySplit ',' attr).foldl attrStep []

/-- `VMLParser._process_metadata`: for each collected line containing a
colon, split once and assign the stripped key/value into the parser's
metadata dictionary. -/
def processMetadata (lines : List String) (md : Mdict) : Mdict :=
  lines.foldl
    (fun m l =>
      match splitFirst ':' l.data with
      | some kv => dictSet m (pyStrip ⟨kv.1⟩) (pyStrip ⟨kv.2⟩)
      | none => m)
    md

/-! ## Table helpers -/

/-- `VMLParser._parse_table_row`: `line.strip('|')`, split on `|`, strip
each cell. -/
def parseTableRow (line : String) : List String :=
  (pySplit '|' (stripSet ['|'] line)).map pyStrip

/-- Python `s.startswith(c)` for a single character. -/
def strHasFirst (c : Char) (s : String) : Bool :=
  match s.data with
  | x :: _ => x = c
  | [] => false

/-- Python `s.endswith(c)` for a single character. -/
def strHasLast (c : Char) (s : String) : Bool :=
  match s.data.reverse with
  | x :: _ => x = c
  | [] => false

/-- Alignment of one separator cell
(`VMLParser._parse_table_alignment`): `cell.startswith(':')` and
`cell.endswith(':')`. -/
def alignOf (cell : String) : String :=
  if strHasFirst ':' cell && strHasLast ':' cell then "center"
  else if strHasLast ':' cell then "right"
  else "left"

/-- `VMLParser._parse_table_alignment`: cells of the separator row mapped
to their alignment. -/
def parseTableAlignment (line : String) : List String :=
  (parseTableRow line).map alignOf

/-! ## The parser (`VMLParser.parse`) -/

/-- The scan of `VMLParser._parse_metadata_block`, started at the line
after the opening delimiter: collected metadata lines, remaining lines
after the closing delimiter, the index advance relative to the scan
start, and whether a closing delimiter was found (when none is found the
collected lines are discarded, matching the Python early `return i`). -/
def metaScan : List String → List String × List String × Nat × Bool
  | [] => ([], [], 0, false)
  | h :: t =>
    if metaLine h then ([], t, 1, true)
    else
      match metaScan t with
      | (ms, rem, adv, f) => (h :: ms, rem, adv + 1, f)

/-- The interior scan of `VMLParser._parse_section`, started at the line
after the section start: nesting is incremented on any section start,
decremented only on an end marker carrying the opening section's name,
and the loop breaks when it reaches zero. Returns the collected content
lines, the remaining lines after the consumed region, and the index
advance relative to the scan start (Python's returned `i + 1` minus the
scan start index). -/
def sectionScan (name : String) : Nat → List String →
    List String × List String × Nat
  | _, [] => ([], [], 1)
  | nesting, h :: t =>
    if (sectionStartMatch h).isSome then
      match sectionScan name (nesting + 1) t with
      | (c, rem, adv) => (h :: c, rem, adv + 1)
    else
      match sectionEndMatch h with
      | some n =>
        if n = name then
          if nesting = 1 then ([], t, 1)
          else
            match sectionScan name (nesting - 1) t with
            | (c, rem, adv) => (h :: c, rem, adv + 1)
        else
          match sectionScan name nesting t with
          | (c, rem, adv) => (h :: c, rem, adv + 1)
      | none =>
        match sectionScan name nesting t with
        | (c, rem, adv) => (h :: c, rem, adv + 1)

/-- Scan of consecutive table data rows (the `while` loop of
`VMLParser._parse_table`): parsed rows, remaining lines, number of rows
consumed. -/
def rowsScan : List String → List (List String) × List String × Nat
  | [] => ([], [], 0)
  | h :: t =>
    if tableRowMatch h then
      match rowsScan t with
      | (rs, rem, n) => (parseTableRow h :: rs, rem, n + 1)
    else ([], h :: t, 0)

/-- The dispatch loop of `VMLParser.parse`, on the suffix of lines still
to process. `i` is the current absolute line index (used for element
line numbers), `md` is the parser instance's persistent `self.metadata`
dictionary. The branch order is exactly the Python `if/elif` chain:
blank skip, metadata block, directive, section start, heading, table
lookahead, paragraph. A section's children are parsed by a fresh
sub-parser (`VMLParser()`) over `'\n'.join(content_lines)`, whose own
metadata is discarded. The fuel argument only forces termination; it is
decremented on every step and is always sufficient for the initial value
chosen in `parseVML`. -/
def goParse (fuel : Nat) (lines : List String) (i : Nat) (md : Mdict) :
    List VMLElement × Mdict :=
  match fuel with
  | 0 => ([], md)
  | fuel + 1 =>
    match lines with
    | [] => ([], md)
    | l :: t =>
      if pyStrip l = "" then goParse fuel t (i + 1) md
      else if metaLine l then
        let sc := metaScan t
        goParse fuel sc.2.1 (i + 1 + sc.2.2.1)
          (if sc.2.2.2 then processMetadata sc.1 md else md)
      else
        match directiveMatch l with
        | some g =>
          let res := goParse fuel t (i + 1) md
          (VMLElement.mk .DIRECTIVE g.2.2
              [("directive", .s g.1), ("params", .dict (parseAttributes g.2.1))]
              [] i :: res.1,
            res.2)
        | none =>
          match sectionStartMatch l with
          | some g =>
            let sc := sectionScan g.1 1 t
            let children :=
              (goParse fuel (splitLinesS (joinLines sc.1)) 0 []).1
            let res := goParse fuel sc.2.1 (i + 1 + sc.2.2) md
            (VMLElement.mk .SECTION g.1
                (dictSet (parseAttributes g.2) "name" (.s g.1))
                children i :: res.1,
              res.2)
          | none =>
            match headingMatch l with
            | some g =>
              let res := goParse fuel t (i + 1) md
              (VMLElement.mk .HEADING (processInlineElements g.2)
                  [("level", .n g.1)] [] i :: res.1,
                res.2)
            | none =>
              match t with
              | nxt :: t2 =>
                if tableSepMatch nxt then
                  let rs := rowsScan t2
                  let res := goParse fuel rs.2.1 (i + 2 + rs.2.2) md
                  (VMLElement.mk .TABLE ""
                      [("headers", .strs (parseTableRow l)),
                       ("alignment", .strs (parseTableAlignment nxt)),
                       ("rows", .rows rs.1)]
                      [] i :: res.1,
                    res.2)
                else
                  let res := goParse fuel t (i + 1) md
                  (VMLElement.mk .PARAGRAPH (processInlineElements l)
                      [] [] i :: res.1,
                    res.2)
              | [] =>
                let res := goParse fuel t (i + 1) md
                (VMLElement.mk .PARAGRAPH (processInlineElements l)
                    [] [] i :: res.1,
                  res.2)

/-- `VMLParser.parse` with the instance state made explicit: `md` is the
parser's `self.metadata` before the call (`parse` resets
`self.elements = []` but never resets `self.metadata`). Returns the
parsed element list and the metadata dictionary after the call. The fuel
`content.data.length + 2` dominates the total number of dispatch steps,
including recursive section sub-parses. -/
def parseVML (md : Mdict) (content : String) : List VMLElement × Mdict :=
  goParse (content.data.length + 2) (splitLinesS content) 0 md

/-! ## The validator (`VMLLanguageHandler.validate_syntax`) -/

/-- Python `', '.join(names)`. -/
def joinWith (sep : String) : List String → String
  | [] => ""
  | [x] => x
  | x :: y :: t => x ++ sep ++ joinWith sep (y :: t)

/-- Per-line section bookkeeping of the validator: given the current
stack of open section names and the line, returns the updated stack and
any diagnostics. Mirrors the Python code literally, including the
closing-tag branch guarded by `match.group(0).endswith('/')` — which can
never hold, since `group(0)` matches `^::\s*(\w+)` and so always ends in
a word character. -/
def validateSectionStep (i : Nat) (line : String)
    (openSections : List String) : List String × List String :=
  match sectionLineRe line with
  | some g =>
    if strHasLast '/' g.1 then
      if openSections = [] ∨ openSections.getLast? ≠ some g.2 then
        (openSections,
          ["Line " ++ toString (i + 1) ++
            ": Unmatched section closing tag: " ++ g.2])
      else (openSections.dropLast, [])
    else (openSections ++ [g.2], [])
  | none => (openSections, [])

/-- Per-line custom-markup balance check of the validator: for each
delimiter pair, in table order, flag the line when the counts of the
opening and closing strings differ. -/
def validateMarkupErrors (i : Nat) (line : String) : List String :=
  CUSTOM_MARKUP.filterMap fun e =>
    if pyCount e.2.1 line ≠ pyCount e.2.2 line then
      some ("Line " ++ toString (i + 1) ++ ": Unclosed " ++ e.1 ++ " markup")
    else none

/-- `VMLLanguageHandler.validate_syntax`: runs a parse (whose result is
unused and which, in this embedding as in the Python code's reachable
paths, cannot fail), then scans the lines accumulating section and
markup diagnostics, and finally reports any sections left open. Returns
`(len(errors) == 0, errors)`. -/
def vmlValidate (code : String) : Bool × List String :=
  let _elements := (parseVML [] code).1
  let lines := splitLinesS code
  let scanned :=
    lines.enum.foldl
      (fun acc p =>
        let st := validateSectionStep p.1 p.2 acc.1
        (st.1, acc.2 ++ st.2 ++ validateMarkupErrors p.1 p.2))
      ([], [])
  let errors :=
    if scanned.1.isEmpty then scanned.2
    else scanned.2 ++
      ["Unclosed sections: " ++ joinWith ", " scanned.1]
  (errors.isEmpty, errors)

/-! ## Helper lemmas -/

/-- `goParse` on an exhausted line list returns no elements and the
metadata unchanged, whatever the fuel. -/
theorem goParse_nil (fuel i : Nat) (md : Mdict) :
    goParse fuel [] i md = ([], md) := by
  cases fuel <;> rfl

/-- The element list computed by `goParse` does not depend on the
incoming metadata dictionary: metadata is written, never read, during
element construction. -/
theorem goParse_fst_md (fuel : Nat) :
    ∀ (lines : List String) (i : Nat) (md md' : Mdict),
      (goParse fuel lines i md).1 = (goParse fuel lines i md').1 := by
  induction fuel with
  | zero => intro lines i md md'; rfl
  | succ fuel ih =>
    intro lines i md md'
    cases lines with
    | nil => rfl
    | cons l t =>
      simp only [goParse]
      by_cases h1 : pyStrip l = ""
      · simp only [if_pos h1]; exact ih t (i + 1) md md'
      · simp only [if_neg h1]
        by_cases h2 : metaLine l = true
        · simp only [h2, if_true]; exact ih _ _ _ _
        · simp only [Bool.not_eq_true] at h2
          simp only [h2, Bool.false_eq_true, if_false]
          cases hd : directiveMatch l with
          | some g =>
            simp only
            exact congrArg (List.cons _) (ih t (i + 1) md md')
          | none =>
            simp only
            cases hs : sectionStartMatch l with
            | some g =>
              simp only
              exact congrArg (List.cons _) (ih _ _ md md')
            | none =>
              simp only
              cases hh : headingMatch l with
              | some g =>
                simp only
                exact congrArg (List.cons _) (ih t (i + 1) md md')
              | none =>
                simp only
                cases t with
                | nil =>
                  simp only
                  exact congrArg (List.cons _) (ih [] (i + 1) md md')
                | cons nxt t2 =>
                  by_cases ht : tableSepMatch nxt = true
                  · simp only [ht, if_true]
                    exact congrArg (List.cons _) (ih _ _ md md')
                  · simp only [Bool.not_eq_true] at ht
                    simp only [ht, Bool.false_eq_true, if_false]
                    exact congrArg (List.cons _) (ih _ (i + 1) md md')

/-! ## Claim C1 -/

/-- C1: the spec claims that for every input whose sections are correctly
nested with name-matched markers, `validate_syntax` returns
`is_valid = true` with no diagnostics. The code cannot do this: its
closing-tag detection is dead (`^::\s*(\w+)` never matches `:: /name`,
and the matched text never ends in `/`), so every opened section stays on
the stack. On the correctly nested input `":: foo\ncontent\n:: /foo"`
the validator returns `is_valid = false` with an unclosed-section
diagnostic. -/
theorem c1_wellnested_input_rejected :
    vmlValidate ":: foo\ncontent\n:: /foo" =
      (false, ["Unclosed sections: foo"]) := by
  decide

/-! ## Claim C2 -/

/-- C2: for `":: foo\ncontent\n:: /bar"` the spec claims a diagnostic
for an unmatched closing tag `bar` on line 3 in addition to the
unclosed-section diagnostic naming `foo`. The code produces only the
latter: the unmatched-closing-tag branch is unreachable (see C1), so the
complete diagnostic list is `["Unclosed sections: foo"]`. -/
theorem c2_unmatched_close_diagnostics :
    vmlValidate ":: foo\ncontent\n:: /bar" =
      (false, ["Unclosed sections: foo"]) := by
  decide

/-! ## Claim C5 -/

/-- C5: the spec claims `"!!urgent"` is flagged with an unclosed-emphasis
diagnostic. The emphasis delimiter pair is `('!!', '!!')`, so the check
`line.count(start) != line.count(end)` compares a value with itself and
can never fire: the validator accepts `"!!urgent"` with no diagnostics,
exactly as it accepts the balanced `"!!urgent!!"`. -/
theorem c5_unclosed_emphasis_never_flagged :
    vmlValidate "!!urgent" = (true, []) ∧
      vmlValidate "!!urgent!!" = (true, []) := by
  constructor <;> decide

/-! ## Claim C6 -/

/-- C6: inline substitution is the sequential application, in this fixed
order, of variable, template and annotation substitution, then each
custom-markup pair in table order (emphasis, context, note, warning,
success, code-reference), then bold, italic and inline code, each pass
operating on the output of the previous one. -/
theorem c6_inline_substitution_order (text : String) :
    processInlineElements text =
      subCodeInline (subItalic (subBold
        (subMarkup ("code_ref", "@[", "]@")
          (subMarkup ("success", "/+", "+/")
            (subMarkup ("warning", "/!", "!/")
              (subMarkup ("note", "(*", "*)")
                (subMarkup ("context", "<~", "~>")
                  (subMarkup ("emphasis", "!!", "!!")
                    (subAnnotations
                      (subTemplates (subVariables text))))))))))) := by
  rfl

/-! ## Claim C3 -/

/-- C3 (counterexample): parsing `t2 = "x"` on the instance that has
just parsed `t1 = "---\na: 1\n---"` does not reproduce a fresh parser's
result: the metadata mapping persists across calls (`parse` never resets
`self.metadata`), so the second call reports `{"a": "1"}` where a fresh
parser reports an empty mapping. -/
theorem c3_metadata_persists_counterexample :
    (parseVML (parseVML [] "---\na: 1\n---").2 "x").2 = [("a", "1")] ∧
      (parseVML [] "x").2 = [] ∧
      ¬ ([("a", "1")] : Mdict) = [] := by
  refine ⟨by decide, by decide, by decide⟩

/-- C3 (amended): the element list is rebuilt from an empty accumulator
on every parse call — the elements returned for `t2` by the second call
on a shared instance equal those of a fresh parser — but the metadata
mapping is not part of this guarantee, since it persists across calls on
the same instance. -/
theorem c3_second_parse_elements_fresh (t1 t2 : String) :
    (parseVML (parseVML [] t1).2 t2).1 = (parseVML [] t2).1 := by
  unfold parseVML
  exact goParse_fst_md _ _ _ _ _

/-! ## Claim C4 -/

/-- C4 (counterexample): for an input with two delimited metadata
blocks, the key-value pairs of the second block do appear in the
resulting metadata mapping: each block encountered is processed and
merged into the same dictionary. -/
theorem c4_second_block_counterexample :
    (parseVML [] "---\na: 1\n---\n---\nb: 2\n---").2 =
        [("a", "1"), ("b", "2")] ∧
      ("b", "2") ∈ (parseVML [] "---\na: 1\n---\n---\nb: 2\n---").2 := by
  refine ⟨by decide, by decide⟩

/-! ## Split/join round trip -/

/-- `splitCharL` never returns an empty list of parts. -/
theorem splitCharL_ne_nil (sep : Char) (l : List Char) :
    splitCharL sep l ≠ [] := by
  cases l with
  | nil => simp [splitCharL]
  | cons c t =>
    simp only [splitCharL]
    split <;> split_ifs <;> simp

/-- Splitting a separator-free list yields that list as the single
part. -/
theorem splitCharL_no_sep (sep : Char) (x : List Char)
    (h : sep ∉ x) : splitCharL sep x = [x] := by
  induction x with
  | nil => rfl
  | cons c t ih =>
    simp only [List.mem_cons, not_or] at h
    simp only [splitCharL, ih h.2]
    rw [if_neg (Ne.symm h.1)]

/-- Splitting `x ++ sep :: r` for separator-free `x` peels off `x` as the
first part. -/
theorem splitCharL_append (sep : Char) (x r : List Char) (h : sep ∉ x) :
    splitCharL sep (x ++ sep :: r) = x :: splitCharL sep r := by
  induction x with
  | nil =>
    simp only [List.nil_append, splitCharL, if_pos rfl]
    cases hr : splitCharL sep r with
    | nil => exact absurd hr (splitCharL_ne_nil sep r)
    | cons a b => rfl
  | cons c t ih =>
    simp only [List.mem_cons, not_or] at h
    simp only [List.cons_append, splitCharL, List.append_eq, ih h.2]
    rw [if_neg (Ne.symm h.1)]

/-- Splitting the separator-join of a nonempty family of separator-free
lists recovers the family. -/
theorem splitCharL_joinSepL (sep : Char) :
    ∀ (M : List (List Char)), M ≠ [] → (∀ x ∈ M, sep ∉ x) →
      splitCharL sep (joinSepL sep M) = M
  | [], h, _ => absurd rfl h
  | [x], _, hfree => by
    simp only [joinSepL]
    exact splitCharL_no_sep sep x (hfree x (by simp))
  | x :: y :: t, _, hfree => by
    simp only [joinSepL]
    rw [splitCharL_append sep x _ (hfree x (by simp))]
    rw [splitCharL_joinSepL sep (y :: t) (by simp)
      (fun z hz => hfree z (List.mem_cons_of_mem x hz))]

/-- String-level round trip: splitting a separator-join of separator-free
strings recovers them. -/
theorem pySplit_joinSep (sep : Char) (L : List String) (hne : L ≠ [])
    (hfree : ∀ x ∈ L, sep ∉ x.data) :
    pySplit sep (joinSep sep L) = L := by
  unfold pySplit joinSep
  rw [show (String.mk (joinSepL sep (L.map String.data))).data =
      joinSepL sep (L.map String.data) from rfl]
  rw [splitCharL_joinSepL sep (L.map String.data)
    (by simpa using hne)
    (by intro x hx
        rcases List.mem_map.mp hx with ⟨s, hs, rfl⟩
        exact hfree s hs)]
  rw [List.map_map]
  exact List.map_id'' (fun s => rfl) L

/-! ## Claim C9 -/

/-- C9 (counterexample): `_parse_attributes` strips values with
`value.strip().strip('"\'')`, and Python's `strip` removes *all* leading
and trailing characters of the given set — not one layer. A value
written with doubled surrounding quotes therefore loses its inner quotes
too: `k=""v""` parses to `v`, not to `"v"` as the claim states. -/
theorem c9_quote_strip_counterexample :
    parseAttributes "k=\"\"v\"\"" = [("k", AVal.s "v")] ∧
      "v" ≠ "\"v\"" := by
  refine ⟨by rfl, by decide⟩

/-- C9 (amended): attribute parsing splits the string on commas; each
`key=value` token maps the stripped key to the stripped value with all
surrounding quote characters removed (not just one layer), and each bare
token maps to boolean true, later tokens updating the dictionary in
order. -/
theorem c9_attr_tokens (toks : List String) (hne : toks ≠ [])
    (hfree : ∀ tok ∈ toks, ',' ∉ tok.data)
    (hjoin : joinSep ',' toks ≠ "") :
    parseAttributes (joinSep ',' toks) =
      toks.foldl
        (fun acc tok =>
          match splitFirst '=' tok.data with
          | some kv =>
            dictSet acc (pyStrip ⟨kv.1⟩)
              (AVal.s (stripSet ['"', '\x27'] (pyStrip ⟨kv.2⟩)))
          | none => dictSet acc (pyStrip tok) (AVal.b true))
        [] := by
  unfold parseAttributes
  rw [if_neg hjoin, pySplit_joinSep ',' toks hne hfree]
  rfl

/-- C9 (witness): the amended attribute parsing evaluated at the
two-token string `"a=1,flag"`. -/
theorem c9_attr_tokens_witness :
    (["a=1", "flag"] : List String) ≠ [] ∧
      (∀ tok ∈ (["a=1", "flag"] : List String), ',' ∉ tok.data) ∧
      joinSep ',' ["a=1", "flag"] ≠ "" ∧
      parseAttributes (joinSep ',' ["a=1", "flag"]) =
        [("a", AVal.s "1"), ("flag", AVal.b true)] :=
  ⟨by decide, by decide, by decide,
    c9_attr_tokens ["a=1", "flag"] (by decide) (by decide) (by decide)⟩

/-! ## Claim C4 -/

/-- `metaScan` on lines consisting of a block of non-delimiter lines
followed by a closing delimiter: collects the block, stops at the
delimiter. -/
theorem metaScan_block (b : List String) (m : String)
    (rest : List String) (hb : ∀ l ∈ b, metaLine l = false)
    (hm : metaLine m = true) :
    metaScan (b ++ (m :: rest)) = (b, rest, b.length + 1, true) := by
  induction b with
  | nil => simp [metaScan, hm]
  | cons h t ih =>
    have hh : metaLine h = false := hb h (by simp)
    simp only [List.cons_append, metaScan, List.append_eq, hh,
      Bool.false_eq_true, if_false]
    rw [ih (fun l hl => hb l (List.mem_cons_of_mem h hl))]
    simp

/-- One dispatch step of `goParse` on a metadata delimiter line, by
computation. -/
theorem goParse_meta_step (fuel i : Nat) (md : Mdict)
    (t : List String) :
    goParse (fuel + 1) ("---" :: t) i md =
      goParse fuel (metaScan t).2.1 (i + 1 + (metaScan t).2.2.1)
        (if (metaScan t).2.2.2 then processMetadata (metaScan t).1 md
          else md) := rfl

/-- For any fuel, parsing a line list made of two delimited metadata
blocks processes both blocks in order into the metadata dictionary and
produces no elements. -/
theorem goParse_two_blocks (fuel i : Nat) (md : Mdict)
    (b1 b2 : List String) (h1m : ∀ l ∈ b1, metaLine l = false)
    (h2m : ∀ l ∈ b2, metaLine l = false) :
    goParse (fuel + 2)
        ("---" :: (b1 ++ ("---" :: ("---" :: (b2 ++ ["---"]))))) i md =
      ([], processMetadata b2 (processMetadata b1 md)) := by
  have step1 :
      goParse (fuel + 2)
          ("---" :: (b1 ++ ("---" :: ("---" :: (b2 ++ ["---"])))))
          i md =
        goParse (fuel + 1) ("---" :: (b2 ++ ["---"]))
          (i + 1 + (b1.length + 1)) (processMetadata b1 md) := by
    rw [show fuel + 2 = (fuel + 1) + 1 from rfl,
      goParse_meta_step (fuel + 1) i md
        (b1 ++ ("---" :: ("---" :: (b2 ++ ["---"])))),
      metaScan_block b1 "---" ("---" :: (b2 ++ ["---"])) h1m (by decide)]
    rfl
  have step2 :
      goParse (fuel + 1) ("---" :: (b2 ++ ["---"]))
          (i + 1 + (b1.length + 1)) (processMetadata b1 md) =
        goParse fuel [] (i + 1 + (b1.length + 1) + 1 + (b2.length + 1))
          (processMetadata b2 (processMetadata b1 md)) := by
    rw [goParse_meta_step fuel _ _ (b2 ++ ["---"]),
      metaScan_block b2 "---" [] h2m (by decide)]
    rfl
  rw [step1, step2, goParse_nil]

/-- C4 (amended): the metadata mapping is not populated only from the
first delimited block — every delimited metadata block encountered is
processed, in order, into the same dictionary, so key-value pairs of a
second block do appear (overwriting earlier values for repeated keys).
Stated for an input that is exactly two delimited blocks whose interior
lines are newline-free and are not delimiter lines themselves. -/
theorem c4_all_blocks_merged (md : Mdict) (b1 b2 : List String)
    (h1m : ∀ l ∈ b1, metaLine l = false)
    (h1n : ∀ l ∈ b1, '\n' ∉ l.data)
    (h2m : ∀ l ∈ b2, metaLine l = false)
    (h2n : ∀ l ∈ b2, '\n' ∉ l.data) :
    parseVML md
        (joinLines
          (("---" :: (b1 ++ ["---"])) ++ ("---" :: (b2 ++ ["---"])))) =
      ([], processMetadata b2 (processMetadata b1 md)) := by
  unfold parseVML
  have hsplit :
      splitLinesS
          (joinLines
            (("---" :: (b1 ++ ["---"])) ++
              ("---" :: (b2 ++ ["---"])))) =
        ("---" :: (b1 ++ ["---"])) ++ ("---" :: (b2 ++ ["---"])) := by
    unfold splitLinesS joinLines
    apply pySplit_joinSep
    · simp
    · intro x hx
      have hx' : x = "---" ∨ x ∈ b1 ∨ x ∈ b2 := by
        simp only [List.mem_append, List.mem_cons, List.mem_singleton]
          at hx
        tauto
      rcases hx' with rfl | hx1 | hx2
      · decide
      · exact h1n x hx1
      · exact h2n x hx2
  rw [hsplit]
  have hshape :
      ("---" :: (b1 ++ ["---"])) ++ ("---" :: (b2 ++ ["---"])) =
        "---" :: (b1 ++ ("---" :: ("---" :: (b2 ++ ["---"])))) := by
    simp
  rw [hshape]
  exact goParse_two_blocks _ 0 md b1 b2 h1m h2m

/-- C4 (witness): the amended statement evaluated on two concrete
one-line blocks. -/
theorem c4_all_blocks_merged_witness :
    parseVML []
        (joinLines
          (("---" :: (["a: 1"] ++ ["---"])) ++
            ("---" :: (["b: 2"] ++ ["---"])))) =
      ([], [("a", "1"), ("b", "2")]) :=
  c4_all_blocks_merged [] ["a: 1"] ["b: 2"]
    (by decide) (by decide) (by decide) (by decide)

/-! ## Claim C7 -/

/-- Shared helper: a nonblank line recognised by none of the structural
matchers is emitted as a paragraph and parsing continues. -/
theorem goParse_para_step (fuel i : Nat) (md : Mdict)
    (l : String) (t : List String)
    (h1 : ¬ pyStrip l = "") (h2 : metaLine l = false)
    (h3 : directiveMatch l = none) (h4 : sectionStartMatch l = none)
    (h5 : headingMatch l = none)
    (h6 : ∀ nxt, t.head? = some nxt → tableSepMatch nxt = false) :
    goParse (fuel + 1) (l :: t) i md =
      (VMLElement.mk .PARAGRAPH (processInlineElements l) [] [] i ::
          (goParse fuel t (i + 1) md).1,
        (goParse fuel t (i + 1) md).2) := by
  cases t with
  | nil =>
    conv_lhs => rw [goParse]
    simp only [h1, h2, h3, h4, h5, Bool.false_eq_true, if_neg,
      if_false, ite_false]
  | cons nxt t2 =>
    have h6' : tableSepMatch nxt = false := h6 nxt rfl
    conv_lhs => rw [goParse]
    simp only [h1, h2, h3, h4, h5, h6', Bool.false_eq_true, if_neg,
      if_false, ite_false]

/-- C7: the parse loop never fails on malformed structural input, and
every nonblank line recognised by none of the structural matchers
(metadata delimiter, directive, section start, heading, table lookahead)
is emitted as a `PARAGRAPH` element, with inline substitution applied,
after which parsing continues on the remaining lines. (The embedded
`goParse`/`parseVML` are total functions: the Python loop has no raising
paths for malformed markup, matching the claim's first half.) -/
theorem c7_unrecognized_line_paragraph (fuel i : Nat) (md : Mdict)
    (l : String) (t : List String)
    (h1 : ¬ pyStrip l = "") (h2 : metaLine l = false)
    (h3 : directiveMatch l = none) (h4 : sectionStartMatch l = none)
    (h5 : headingMatch l = none)
    (h6 : ∀ nxt, t.head? = some nxt → tableSepMatch nxt = false) :
    goParse (fuel + 1) (l :: t) i md =
      (VMLElement.mk .PARAGRAPH (processInlineElements l) [] [] i ::
          (goParse fuel t (i + 1) md).1,
        (goParse fuel t (i + 1) md).2) :=
  goParse_para_step fuel i md l t h1 h2 h3 h4 h5 h6

/-- C7 (witness): the paragraph fallback evaluated on the unrecognised
line `"plain text"`. -/
theorem c7_unrecognized_line_paragraph_witness :
    ¬ pyStrip "plain text" = "" ∧ metaLine "plain text" = false ∧
      directiveMatch "plain text" = none ∧
      sectionStartMatch "plain text" = none ∧
      headingMatch "plain text" = none ∧
      goParse 1 ["plain text"] 0 [] =
        ([VMLElement.mk .PARAGRAPH (processInlineElements "plain text")
            [] [] 0], []) :=
  ⟨by decide, by decide, by decide, by decide, by decide,
    c7_unrecognized_line_paragraph 0 0 [] "plain text" [] (by decide)
      (by decide) (by decide) (by decide) (by decide)
      (fun nxt h => nomatch h)⟩

/-! ## Claim C10: heading levels -/

/-- Whenever `HEADING_PATTERN` matches, the captured level is the length
of the line's leading `#` run, and it lies between 1 and 6. -/
theorem headingMatch_level {l : String} {lvl : Nat} {c : String}
    (h : headingMatch l = some (lvl, c)) :
    lvl = leadingRun l ∧ 1 ≤ lvl ∧ lvl ≤ 6 := by
  simp only [headingMatch] at h
  split at h
  case isTrue hg =>
    split at h
    · exact nomatch h
    split at h
    · split at h
      · simp only [Option.some.injEq, Prod.mk.injEq] at h
        exact ⟨h.1.symm, h.1 ▸ hg.1, h.1 ▸ hg.2⟩
      · exact nomatch h
    · simp only [Option.some.injEq, Prod.mk.injEq] at h
      exact ⟨h.1.symm, h.1 ▸ hg.1, h.1 ▸ hg.2⟩
  case isFalse => exact nomatch h

/-- A line whose leading `#` run is seven or longer never matches
`HEADING_PATTERN`. -/
theorem headingMatch_none_of_seven {l : String}
    (h : 7 ≤ leadingRun l) : headingMatch l = none := by
  unfold headingMatch
  rw [if_neg]
  omega

/-- A line with a positive leading `#` run starts with `'#'`. -/
theorem leadingRun_head {l : String} (h : 1 ≤ leadingRun l) :
    ∃ t, l.data = '#' :: t := by
  unfold leadingRun at h
  cases hd : l.data with
  | nil => rw [hd] at h; simp at h
  | cons ch t =>
    rw [hd] at h
    by_cases hc : ch = '#'
    · subst hc; exact ⟨t, rfl⟩
    · rw [List.takeWhile_cons] at h
      simp only [decide_eq_true_eq, hc] at h
      simp at h

/-- A line starting with `'#'` is not a metadata delimiter line. -/
theorem metaLine_hash {l : String} {t : List Char}
    (hd : l.data = '#' :: t) : metaLine l = false := by
  unfold metaLine
  rw [hd]
  split <;> simp_all

/-- A line starting with `'#'` is not a directive. -/
theorem directiveMatch_hash {l : String} {t : List Char}
    (hd : l.data = '#' :: t) : directiveMatch l = none := by
  unfold directiveMatch
  rw [hd]
  split <;> simp_all

/-- A line starting with `'#'` is not a section start. -/
theorem sectionStartMatch_hash {l : String} {t : List Char}
    (hd : l.data = '#' :: t) : sectionStartMatch l = none := by
  unfold sectionStartMatch
  rw [hd]
  split <;> simp_all

/-- A line starting with `'#'` does not strip to the empty string. -/
theorem pyStrip_hash {l : String} {t : List Char}
    (hd : l.data = '#' :: t) : ¬ pyStrip l = "" := by
  intro h
  have hdata : stripL isPySpace l.data = [] := congrArg String.data h
  rw [hd] at hdata
  unfold stripL at hdata
  rw [List.dropWhile_cons] at hdata
  simp only [show isPySpace '#' = false from rfl, Bool.false_eq_true,
    if_false] at hdata
  rw [List.reverse_eq_nil_iff, List.dropWhile_eq_nil_iff] at hdata
  have := hdata '#' (by simp)
  simp [isPySpace] at this

/-- Splitting a newline-free string yields that string as its single
line. -/
theorem splitLinesS_single {l : String} (h : '\n' ∉ l.data) :
    splitLinesS l = [l] := by
  unfold splitLinesS pySplit
  rw [splitCharL_no_sep '\n' l.data h]
  rfl

/-- Recursive membership of an element in an element list: directly, or
anywhere inside the children of a member. -/
inductive ElemIn : VMLElement → List VMLElement → Prop where
  | here (e : VMLElement) (rest : List VMLElement) : ElemIn e (e :: rest)
  | there (e f : VMLElement) (rest : List VMLElement) :
      ElemIn e rest → ElemIn e (f :: rest)
  | child (e : VMLElement) (ty : VMLElementType) (c : String)
      (attrs : List (String × AVal)) (ch : List VMLElement) (ln : Nat)
      (rest : List VMLElement) :
      ElemIn e ch → ElemIn e (VMLElement.mk ty c attrs ch ln :: rest)

/-- Nothing is recursively a member of the empty list. -/
theorem elemIn_nil (e : VMLElement) : ¬ ElemIn e [] := fun h => nomatch h

/-- Inversion for recursive membership in a cons cell. -/
theorem elemIn_cons {e f : VMLElement} {rest : List VMLElement}
    (h : ElemIn e (f :: rest)) :
    e = f ∨ ElemIn e rest ∨ ElemIn e f.children := by
  cases h with
  | here => exact Or.inl rfl
  | there _ _ h' => exact Or.inr (Or.inl h')
  | child _ _ _ _ _ _ h' => exact Or.inr (Or.inr h')

/-- One dispatch step of `goParse` on a cons cell, written out. -/
theorem goParse_cons_eq (fuel : Nat) (l : String) (t : List String)
    (i : Nat) (md : Mdict) :
    goParse (fuel + 1) (l :: t) i md =
      (if pyStrip l = "" then goParse fuel t (i + 1) md
      else if metaLine l then
        goParse fuel (metaScan t).2.1 (i + 1 + (metaScan t).2.2.1)
          (if (metaScan t).2.2.2 then processMetadata (metaScan t).1 md
            else md)
      else
        match directiveMatch l with
        | some g =>
          (VMLElement.mk .DIRECTIVE g.2.2
              [("directive", .s g.1),
               ("params", .dict (parseAttributes g.2.1))]
              [] i :: (goParse fuel t (i + 1) md).1,
            (goParse fuel t (i + 1) md).2)
        | none =>
          match sectionStartMatch l with
          | some g =>
            (VMLElement.mk .SECTION g.1
                (dictSet (parseAttributes g.2) "name" (.s g.1))
                (goParse fuel
                  (splitLinesS (joinLines (sectionScan g.1 1 t).1))
                  0 []).1 i ::
                (goParse fuel (sectionScan g.1 1 t).2.1
                  (i + 1 + (sectionScan g.1 1 t).2.2) md).1,
              (goParse fuel (sectionScan g.1 1 t).2.1
                (i + 1 + (sectionScan g.1 1 t).2.2) md).2)
          | none =>
            match headingMatch l with
            | some g =>
              (VMLElement.mk .HEADING (processInlineElements g.2)
                  [("level", .n g.1)] [] i ::
                  (goParse fuel t (i + 1) md).1,
                (goParse fuel t (i + 1) md).2)
            | none =>
              match t with
              | nxt :: t2 =>
                if tableSepMatch nxt then
                  (VMLElement.mk .TABLE ""
                      [("headers", .strs (parseTableRow l)),
                       ("alignment", .strs (parseTableAlignment nxt)),
                       ("rows", .rows (rowsScan t2).1)]
                      [] i ::
                      (goParse fuel (rowsScan t2).2.1
                        (i + 2 + (rowsScan t2).2.2) md).1,
                    (goParse fuel (rowsScan t2).2.1
                      (i + 2 + (rowsScan t2).2.2) md).2)
                else
                  (VMLElement.mk .PARAGRAPH (processInlineElements l)
                      [] [] i :: (goParse fuel t (i + 1) md).1,
                    (goParse fuel t (i + 1) md).2)
              | [] =>
                (VMLElement.mk .PARAGRAPH (processInlineElements l)
                    [] [] i :: (goParse fuel t (i + 1) md).1,
                  (goParse fuel t (i + 1) md).2)) := rfl

/-- Every heading element ever produced by the parse loop — at any
nesting depth — carries a `level` attribute between 1 and 6. -/
theorem goParse_heading_levels (fuel : Nat) :
    ∀ (lines : List String) (i : Nat) (md : Mdict) (e : VMLElement),
      ElemIn e (goParse fuel lines i md).1 → e.etype = .HEADING →
      ∃ lvl, e.attrs = [("level", AVal.n lvl)] ∧ 1 ≤ lvl ∧ lvl ≤ 6 := by
  induction fuel with
  | zero => intro lines i md e h _; exact absurd h (elemIn_nil e)
  | succ fuel ih =>
    intro lines i md e h htype
    cases lines with
    | nil => exact absurd h (elemIn_nil e)
    | cons l t =>
      rw [goParse_cons_eq] at h
      by_cases h1 : pyStrip l = ""
      · rw [if_pos h1] at h
        exact ih t (i + 1) md e h htype
      rw [if_neg h1] at h
      by_cases h2 : metaLine l = true
      · rw [if_pos h2] at h
        exact ih _ _ _ e h htype
      rw [if_neg h2] at h
      cases hdm : directiveMatch l with
      | some g =>
        rw [hdm] at h
        simp only at h
        rcases elemIn_cons h with rfl | h' | h'
        · exact absurd htype (by simp [VMLElement.etype])
        · exact ih t (i + 1) md e h' htype
        · exact absurd h' (elemIn_nil e)
      | none =>
        rw [hdm] at h
        simp only at h
        cases hsm : sectionStartMatch l with
        | some g =>
          rw [hsm] at h
          simp only at h
          rcases elemIn_cons h with rfl | h' | h'
          · exact absurd htype (by simp [VMLElement.etype])
          · exact ih _ _ md e h' htype
          · exact ih _ 0 [] e h' htype
        | none =>
          rw [hsm] at h
          simp only at h
          cases hhm : headingMatch l with
          | some g =>
            rw [hhm] at h
            simp only at h
            rcases elemIn_cons h with rfl | h' | h'
            · refine ⟨g.1, rfl, ?_, ?_⟩
              · exact (headingMatch_level (l := l) (by rw [hhm])).2.1
              · exact (headingMatch_level (l := l) (by rw [hhm])).2.2
            · exact ih t (i + 1) md e h' htype
            · exact absurd h' (elemIn_nil e)
          | none =>
            rw [hhm] at h
            simp only at h
            cases t with
            | nil =>
              simp only at h
              rcases elemIn_cons h with rfl | h' | h'
              · exact absurd htype (by simp [VMLElement.etype])
              · exact ih [] (i + 1) md e h' htype
              · exact absurd h' (elemIn_nil e)
            | cons nxt t2 =>
              simp only at h
              by_cases h6 : tableSepMatch nxt = true
              · rw [if_pos h6] at h
                simp only at h
                rcases elemIn_cons h with rfl | h' | h'
                · exact absurd htype (by simp [VMLElement.etype])
                · exact ih _ _ md e h' htype
                · exact absurd h' (elemIn_nil e)
              · rw [if_neg h6] at h
                simp only at h
                rcases elemIn_cons h with rfl | h' | h'
                · exact absurd htype (by simp [VMLElement.etype])
                · exact ih (nxt :: t2) (i + 1) md e h' htype
                · exact absurd h' (elemIn_nil e)

/-- C10: a single input line with seven or more leading `#` characters
is emitted as a Paragraph, not a Heading (the heading pattern caps the
run at six); every Heading element produced by `goParse` at any nesting
depth has a level between 1 and 6; and whenever the heading pattern
matches a line, the captured level equals the length of the line's
leading `#` run. -/
theorem c10_heading_levels :
    (∀ l : String, 7 ≤ leadingRun l → '\n' ∉ l.data →
      parseVML [] l =
        ([VMLElement.mk .PARAGRAPH (processInlineElements l) [] [] 0],
          [])) ∧
    (∀ (fuel : Nat) (lines : List String) (i : Nat) (md : Mdict)
        (e : VMLElement),
      ElemIn e (goParse fuel lines i md).1 → e.etype = .HEADING →
      ∃ lvl, e.attrs = [("level", AVal.n lvl)] ∧ 1 ≤ lvl ∧ lvl ≤ 6) ∧
    (∀ (l : String) (lvl : Nat) (c : String),
      headingMatch l = some (lvl, c) → lvl = leadingRun l) := by
  refine ⟨?_, ?_, ?_⟩
  · intro l h7 hn
    obtain ⟨t, hd⟩ := leadingRun_head (l := l) (by omega)
    unfold parseVML
    rw [splitLinesS_single hn]
    rw [show l.data.length + 2 = (l.data.length + 1) + 1 from rfl]
    rw [goParse_para_step (l.data.length + 1) 0 [] l []
      (pyStrip_hash hd) (metaLine_hash hd) (directiveMatch_hash hd)
      (sectionStartMatch_hash hd) (headingMatch_none_of_seven h7)
      (fun nxt hx => nomatch hx)]
    rw [goParse_nil]
  · exact goParse_heading_levels
  · intro l lvl c h
    exact (headingMatch_level h).1

/-- C10 (witness): the seven-hash line `"####### x"` parses to a single
paragraph element. -/
theorem c10_heading_levels_witness :
    7 ≤ leadingRun "####### x" ∧ '\n' ∉ "####### x".data ∧
      parseVML [] "####### x" =
        ([VMLElement.mk .PARAGRAPH (processInlineElements "####### x")
            [] [] 0], []) :=
  ⟨by decide, by decide,
    c10_heading_levels.1 "####### x" (by decide) (by decide)⟩
